import Mathlib

/-!
# Upload / predict / display flow of `static/js/script.js`

A shallow embedding of the browser script of the kidney-disease classifier.
The page's DOM nodes are the only state of the script, so the embedding is a
record `Page` of the properties the script reads or writes, one Lean function
per listener or function of the script, and a step function over the events
that can reach the page (user actions and asynchronous completions).

Conventions.
* `style.display` of a region is a `Bool`: `true` is `'block'`, `false` is
  `'none'`.
* `fileInput.files` and `dataTransfer.files` are lists of `File`.
* The `async` click listener of `predictBtn` is split at its `await`s: the
  synchronous part up to the call of `fetch` is `predictClick`, what runs once
  the promise settles is `predictResume`.  No statement runs between the two
  `await`s, so they are one suspension point.
* A `FileReader` whose `onload` has not fired yet is an entry of `reading`; a
  request whose promise has not settled is an entry of `inFlight`; `posted`
  logs every request that was issued.
* A thrown exception is `Except.error`, carrying the page as the throw left it.
* The `click` listener of `uploadArea` only opens the browse dialog; what the
  user picks there is the `browse` event. The console output is not part of
  the page and is left out.
-/

namespace KidneyUI

/-! ## Strings -/

/-- JavaScript `toLowerCase`, on the ASCII letters. The two patterns the script
searches for are ASCII, and no character outside ASCII lower-cases to one of
their letters. -/
def toLowerCase (s : String) : String := ⟨s.data.map Char.toLower⟩

/-- Whether `pat` occurs in the character list as a contiguous block. -/
def includesChars : List Char → List Char → Bool
  | [], pat => pat.isEmpty
  | c :: cs, pat => pat.isPrefixOf (c :: cs) || includesChars cs pat

/-- JavaScript `String.prototype.includes`. -/
def includes (s pat : String) : Bool := includesChars s.data pat.data

/-- JavaScript `String.prototype.startsWith`. -/
def startsWith (s pat : String) : Bool := pat.data.isPrefixOf s.data

/-! ## Data -/

/-- A browser `File`: the script reads `type` and `size`, and sends the file. -/
structure File where
  name : String
  type : String
  size : Nat
deriving DecidableEq, Repr

/-- What reading a property of the parsed JSON body can give, as far as the
script tells values apart. `undefined` is an absent property. A number carries
whether it is zero and the text its conversion to a string gives. `object` is
an object or an array, with the text its conversion to a string gives, or
`none` when that conversion throws (a `toString` entry that is not callable). -/
inductive JsValue where
  | undefined
  | null
  | bool (b : Bool)
  | number (isZero : Bool) (shown : String)
  | string (s : String)
  | object (shown : Option String)
deriving DecidableEq, Repr

/-- JavaScript truthiness: `undefined`, `null`, `false`, zero and the empty
string are falsy. -/
def JsValue.truthy : JsValue → Bool
  | .undefined => false
  | .null => false
  | .bool b => b
  | .number isZero _ => !isZero
  | .string s => decide (s ≠ "")
  | .object _ => true

/-- The conversion to a string that `+` with a string applies; `none` when it throws. -/
def JsValue.toStr : JsValue → Option String
  | .undefined => some "undefined"
  | .null => some "null"
  | .bool true => some "true"
  | .bool false => some "false"
  | .number _ shown => some shown
  | .string s => some s
  | .object shown => shown

/-- The receiver of a call of `toLowerCase`: the string itself, or `none` for
every other value, on which the call throws. -/
def JsValue.asString : JsValue → Option String
  | .string s => some s
  | _ => none

/-- JavaScript `a || b` with a string literal `b`. -/
def orElse (a : JsValue) (b : String) : JsValue :=
  if a.truthy then a else .string b

/-- The three properties the script reads of a parsed JSON body that is not
`null`. For a body that is not an object (a number, a string, a boolean, an
array) all three are `undefined`. -/
structure ResponseData where
  status : JsValue
  prediction : JsValue
  message : JsValue
deriving DecidableEq, Repr

/-- How `await fetch(...)` followed by `await response.json()` ends: the call
is rejected, the body is not JSON, the body is the JSON value `null`, or it is
any other JSON value. -/
inductive FetchOutcome where
  | rejected
  | unparseable
  | parsedNull
  | parsed (data : ResponseData)
deriving DecidableEq, Repr

/-- The DOM state the script reads and writes, with the pending asynchronous
work and the logs of alerts, requests and scrolls. -/
structure Page where
  files : List File
  previewVisible : Bool
  loaderVisible : Bool
  resultVisible : Bool
  imagePreviewSrc : Option File
  uploadBackground : String
  resultText : String
  resultClass : String
  iconClass : String
  iconHTML : String
  alerts : List String
  reading : List File
  inFlight : List File
  posted : List File
  scrolls : List String
deriving DecidableEq, Repr

/-- Modelled from the spec: the page as loaded, which the markup and style
sheet (not part of the script) determine. It is the `Idle` mode: no file is
selected and the preview, loading and result regions are hidden. -/
def initialPage : Page :=
  { files := [], previewVisible := false, loaderVisible := false, resultVisible := false,
    imagePreviewSrc := none, uploadBackground := "", resultText := "", resultClass := "",
    iconClass := "", iconHTML := "", alerts := [], reading := [], inFlight := [],
    posted := [], scrolls := [] }

/-! ## The script -/

def typeWarning : String := "⚠️ Please upload an image file (JPG, JPEG, PNG)"

def sizeWarning : String := "⚠️ File size should be less than 10MB"

def noFileWarning : String := "⚠️ Please select an image first"

def networkWarning : String := "❌ Network error. Please check your connection and try again."

/-- The function `handleFile(file)`: two validations, then the preview read is started. -/
def handleFile (s : Page) (file : File) : Page :=
  if !startsWith file.type "image/" then
    { s with alerts := s.alerts ++ [typeWarning] }
  else if file.size > 10 * 1024 * 1024 then
    { s with alerts := s.alerts ++ [sizeWarning] }
  else
    { s with reading := s.reading ++ [file] }

/-- The `reader.onload` callback installed by `handleFile`, for the read of `file`. -/
def readerOnload (s : Page) (file : File) : Page :=
  { s with imagePreviewSrc := some file, previewVisible := true, resultVisible := false }

/-- The `dragover` listener of `uploadArea`. -/
def dragoverArea (s : Page) : Page := { s with uploadBackground := "#e0f2fe" }

/-- The `dragleave` listener of `uploadArea`. -/
def dragleaveArea (s : Page) : Page := { s with uploadBackground := "#f8fafc" }

/-- The `drop` listener of `uploadArea`; `files` is `e.dataTransfer.files`. -/
def dropFiles (s : Page) (files : List File) : Page :=
  let s1 := { s with uploadBackground := "#f8fafc" }
  match files with
  | [] => s1
  | file :: _ => handleFile s1 file

/-- The user picks `files` in the browse dialog: the browser stores them in
`fileInput.files`, then the `change` listener runs. -/
def browseFiles (s : Page) (files : List File) : Page :=
  let s1 := { s with files := files }
  match files with
  | [] => s1
  | file :: _ => handleFile s1 file

/-- The `click` listener of `removeBtn`. -/
def removeClick (s : Page) : Page :=
  { s with files := [], previewVisible := false, resultVisible := false,
           uploadBackground := "#f8fafc" }

/-- The `click` listener of `predictBtn` up to the call of `fetch`. -/
def predictClick (s : Page) : Page :=
  match s.files.head? with
  | none => { s with alerts := s.alerts ++ [noFileWarning] }
  | some file =>
    { s with previewVisible := false, loaderVisible := true, resultVisible := false,
             inFlight := s.inFlight ++ [file], posted := s.posted ++ [file] }

/-- The function `displayResult(prediction)`. The region is shown first; a
`prediction` that is not a string then makes `prediction.toLowerCase()` throw. -/
def displayResult (s : Page) (prediction : Option String) : Except Page Page :=
  let s1 := { s with resultVisible := true }
  match prediction with
  | none => .error s1
  | some p =>
    let predictionLower := toLowerCase p
    let s2 :=
      if includes predictionLower "normal" then
        { s1 with resultText := "✅ Normal Kidney", resultClass := "result-prediction normal",
                  iconClass := "result-icon success",
                  iconHTML := "<i class=\"fas fa-check-circle\"></i>" }
      else if includes predictionLower "tumor" then
        { s1 with resultText := "⚠️ Tumor Detected", resultClass := "result-prediction tumor",
                  iconClass := "result-icon danger",
                  iconHTML := "<i class=\"fas fa-exclamation-circle\"></i>" }
      else
        { s1 with resultText := p, resultClass := "result-prediction",
                  iconClass := "result-icon",
                  iconHTML := "<i class=\"fas fa-question-circle\"></i>" }
    .ok { s2 with scrolls := s2.scrolls ++ ["resultSection"] }

/-- The `catch` block of the `predictBtn` listener. -/
def catchBlock (s : Page) : Page :=
  { s with loaderVisible := false, alerts := s.alerts ++ [networkWarning] }

/-- The `predictBtn` listener from the point where its promise settles. A
rejected call or a body that is not JSON goes to the `catch` block at once.
Otherwise the loader is hidden first; reading `data.status` of a `null` body
throws, as does `displayResult` on a label that is not a string and the
concatenation with a message that cannot be converted to a string, and every
throw ends in the `catch` block. -/
def predictResume (s : Page) : FetchOutcome → Page
  | .rejected => catchBlock s
  | .unparseable => catchBlock s
  | .parsedNull => catchBlock { s with loaderVisible := false }
  | .parsed data =>
    let s1 := { s with loaderVisible := false }
    if data.status = .string "success" then
      match displayResult s1 data.prediction.asString with
      | .ok s2 => s2
      | .error s2 => catchBlock s2
    else
      match (orElse data.message "Prediction failed").toStr with
      | some text => { s1 with alerts := s1.alerts ++ ["❌ Error: " ++ text] }
      | none => catchBlock s1

/-- The `click` listener of `newPredictionBtn`. -/
def resetClick (s : Page) : Page :=
  { s with files := [], previewVisible := false, resultVisible := false,
           loaderVisible := false, uploadBackground := "#f8fafc",
           scrolls := s.scrolls ++ ["uploadArea"] }

/-! ## Events -/

/-- What can happen to the page: a user action, the end of the `i`-th pending
file read, or the settling of the `i`-th request in flight. -/
inductive Event where
  | browse (files : List File)
  | drop (files : List File)
  | dragover
  | dragleave
  | remove
  | predict
  | reset
  | readDone (i : Nat)
  | fetchDone (i : Nat) (r : FetchOutcome)
deriving DecidableEq, Repr

/-- One event. A completion that names no pending work changes nothing. -/
def step (s : Page) : Event → Page
  | .browse files => browseFiles s files
  | .drop files => dropFiles s files
  | .dragover => dragoverArea s
  | .dragleave => dragleaveArea s
  | .remove => removeClick s
  | .predict => predictClick s
  | .reset => resetClick s
  | .readDone i =>
    match s.reading.get? i with
    | none => s
    | some file => readerOnload { s with reading := s.reading.eraseIdx i } file
  | .fetchDone i r =>
    match s.inFlight.get? i with
    | none => s
    | some _ => predictResume { s with inFlight := s.inFlight.eraseIdx i } r

/-- A sequence of events, from left to right. -/
def run (s : Page) (es : List Event) : Page := es.foldl step s

/-- The validation of `handleFile`, as one predicate. -/
def validFile (f : File) : Bool := startsWith f.type "image/" && decide (f.size ≤ 10485760)

/-- The three visibilities and the preview image are those of `s`. -/
def sameView (s t : Page) : Prop :=
  t.previewVisible = s.previewVisible ∧ t.loaderVisible = s.loaderVisible ∧
  t.resultVisible = s.resultVisible ∧ t.imagePreviewSrc = s.imagePreviewSrc

/-! ## Label classification (C1) -/

/-- The three presentation variants of `displayResult`. -/
def showsBenign (s : Page) : Prop :=
  s.resultText = "✅ Normal Kidney" ∧ s.resultClass = "result-prediction normal" ∧
  s.iconClass = "result-icon success"

def showsDanger (s : Page) : Prop :=
  s.resultText = "⚠️ Tumor Detected" ∧ s.resultClass = "result-prediction tumor" ∧
  s.iconClass = "result-icon danger"

def showsNeutral (s : Page) (p : String) : Prop :=
  s.resultText = p ∧ s.resultClass = "result-prediction" ∧ s.iconClass = "result-icon"

instance (s : Page) : Decidable (showsBenign s) := by unfold showsBenign; infer_instance
instance (s : Page) : Decidable (showsDanger s) := by unfold showsDanger; infer_instance
instance (s : Page) (p : String) : Decidable (showsNeutral s p) := by
  unfold showsNeutral; infer_instance

/-- The page `displayResult` leaves for a string label (it does not throw then). -/
def displayed (s : Page) (p : String) : Page :=
  match displayResult s (some p) with
  | .ok t => t
  | .error t => t

/-! ## Validation outcomes (C2) -/

/-- `handleFile` accepts `f`: the preview read of `f` is started and no warning is issued. -/
def accepts (s : Page) (f : File) : Prop :=
  (handleFile s f).reading = s.reading ++ [f] ∧ (handleFile s f).alerts = s.alerts

/-- `handleFile` rejects `f`: exactly one warning is issued, no read is started,
and the visibility of the three regions and the preview image are unchanged. -/
def rejects (s : Page) (f : File) : Prop :=
  (∃ w, (handleFile s f).alerts = s.alerts ++ [w]) ∧
  (handleFile s f).reading = s.reading ∧ sameView s (handleFile s f)

/-! ## Sample inputs -/

def kidneyPng : File := { name := "kidney.png", type := "image/png", size := 204800 }

def scanJpg : File := { name := "scan.jpg", type := "image/jpeg", size := 10485760 }

def notesTxt : File := { name := "notes.txt", type := "text/plain", size := 12 }

def hugePng : File := { name := "huge.png", type := "image/png", size := 10485761 }

def successWithoutLabel : ResponseData :=
  { status := .string "success", prediction := .undefined, message := .undefined }

def errorWithoutMessage : ResponseData :=
  { status := .string "error", prediction := .undefined, message := .undefined }

/-- The `Previewing` mode: `kidneyPng` was picked in the browse dialog and its
preview read has finished. -/
def previewing : Page := run initialPage [.browse [kidneyPng], .readDone 0]

/-- The `Submitting` mode: `kidneyPng` is previewed and its request is in flight. -/
def submitting : Page := run initialPage [.browse [kidneyPng], .readDone 0, .predict]

/-! ## Submission (C7, C8) -/

/-- The predict action on `s`, then the settling with `r` of the request that
action issued (the last one in flight). -/
def submitThenSettle (s : Page) (r : FetchOutcome) : Page :=
  step (step s .predict) (.fetchDone s.inFlight.length r)

/-! ## Region consistency (C6) -/

/-- At most one of the preview, loading and result regions is visible. -/
def atMostOneVisible (s : Page) : Bool :=
  !(s.previewVisible && s.loaderVisible) && !(s.previewVisible && s.resultVisible) &&
    !(s.loaderVisible && s.resultVisible)

/-- While a request is in flight the loader is visible and the preview and
result regions are hidden. -/
def submittingConsistent (s : Page) : Bool :=
  s.inFlight.isEmpty || (s.loaderVisible && !s.previewVisible && !s.resultVisible)

def regionsConsistent (s : Page) : Bool := atMostOneVisible s && submittingConsistent s

/-- The schedule under which the regions stay consistent: browse-select, drop,
predict and reset happen only while no request is in flight, and predict only
while no file read is pending. Completions, remove and the drag feedback are
not restricted. -/
def quiet (s : Page) : Event → Bool
  | .browse _ => s.inFlight.isEmpty
  | .drop _ => s.inFlight.isEmpty
  | .reset => s.inFlight.isEmpty
  | .predict => s.inFlight.isEmpty && s.reading.isEmpty
  | _ => true

/-- Every event of the sequence respects `quiet` in the state it occurs in. -/
def serial : Page → List Event → Bool
  | _, [] => true
  | s, e :: es => quiet s e && serial (step s e) es

/-- The inductive strengthening of `regionsConsistent`. -/
def settled (s : Page) : Prop :=
  (s.inFlight = [] → s.loaderVisible = false ∧ (s.previewVisible && s.resultVisible) = false) ∧
  (s.inFlight ≠ [] → s.loaderVisible = true ∧ s.previewVisible = false ∧
    s.resultVisible = false ∧ s.reading = [] ∧ s.inFlight.length = 1)

theorem includesChars_of_isPrefixOf (l pat : List Char) (h : pat.isPrefixOf l = true) :
    includesChars l pat = true := by
  cases l with
  | nil =>
    cases pat with
    | nil => rfl
    | cons a pat => simp at h
  | cons c cs => simp [includesChars, h]

theorem includesChars_append_left (a l pat : List Char) (h : includesChars l pat = true) :
    includesChars (a ++ l) pat = true := by
  induction a with
  | nil => exact h
  | cons c a ih => simp [includesChars, ih]

theorem includesChars_middle (a pat b : List Char) : includesChars (a ++ (pat ++ b)) pat = true :=
  includesChars_append_left a _ pat (includesChars_of_isPrefixOf _ _ (by simp))

theorem toLowerCase_append (a b : String) :
    toLowerCase (a ++ b) = toLowerCase a ++ toLowerCase b := by
  apply String.ext
  simp [toLowerCase, String.data_append]

theorem includes_embedded (a x b pat : String) (hx : toLowerCase x = pat) :
    includes (toLowerCase (a ++ x ++ b)) pat = true := by
  rw [toLowerCase_append, toLowerCase_append, hx]
  simp only [includes, String.data_append, List.append_assoc]
  exact includesChars_middle _ _ _

theorem displayResult_ok (s : Page) (p : String) :
    displayResult s (some p) = .ok (displayed s p) := by
  simp only [displayed, displayResult]

theorem displayed_cases (s : Page) (p : String) :
    if includes (toLowerCase p) "normal" = true then showsBenign (displayed s p)
    else if includes (toLowerCase p) "tumor" = true then showsDanger (displayed s p)
    else showsNeutral (displayed s p) p := by
  simp only [displayed, displayResult, showsBenign, showsDanger, showsNeutral]
  split_ifs <;> simp

/-- C1: for every label string `p`, `displayResult` returns normally with the
result region shown, and with `l` the lower-cased `p`: if `l` contains "normal"
the benign variant is displayed, otherwise if `l` contains "tumor" the danger
variant, otherwise the text `p` verbatim with the neutral variant. So a label
whose lower-casing contains both substrings is benign, whatever the letter
case of the two occurrences and whichever comes first, and "Normal", "Tumor", "Cyst" are benign, danger and
raw-text-neutral. -/
theorem C1_displayResult_classification :
    (∀ (s : Page) (p : String),
      displayResult s (some p) = .ok (displayed s p) ∧
      (displayed s p).resultVisible = true ∧
      (if includes (toLowerCase p) "normal" = true then showsBenign (displayed s p)
       else if includes (toLowerCase p) "tumor" = true then showsDanger (displayed s p)
       else showsNeutral (displayed s p) p)) ∧
    (∀ (s : Page) (p : String),
      includes (toLowerCase p) "normal" = true → includes (toLowerCase p) "tumor" = true →
      showsBenign (displayed s p)) ∧
    (∀ (s : Page) (a b c x y : String), toLowerCase x = "normal" → toLowerCase y = "tumor" →
      showsBenign (displayed s (a ++ x ++ b ++ y ++ c)) ∧
      showsBenign (displayed s (a ++ y ++ b ++ x ++ c))) ∧
    (∀ s : Page, showsBenign (displayed s "TUMOR or Normal") ∧
      showsBenign (displayed s "nOrMaL, not tUmOr") ∧
      showsBenign (displayed s "Normal") ∧
      showsDanger (displayed s "Tumor") ∧
      showsNeutral (displayed s "Cyst") "Cyst") := by
  refine ⟨fun s p => ⟨displayResult_ok s p, ?_, displayed_cases s p⟩, ?_, ?_, ?_⟩
  · simp only [displayed, displayResult]
    split_ifs <;> rfl
  · intro s p hn _
    have h := displayed_cases s p
    rw [if_pos hn] at h
    exact h
  · intro s a b c x y hx hy
    have h1 := displayed_cases s (a ++ x ++ b ++ y ++ c)
    have h2 := displayed_cases s (a ++ y ++ b ++ x ++ c)
    have e1 : includes (toLowerCase (a ++ x ++ b ++ y ++ c)) "normal" = true := by
      have := includes_embedded a x (b ++ y ++ c) "normal" hx
      simpa [String.append_assoc] using this
    have e2 : includes (toLowerCase (a ++ y ++ b ++ x ++ c)) "normal" = true :=
      includes_embedded (a ++ y ++ b) x c "normal" hx
    rw [if_pos e1] at h1
    rw [if_pos e2] at h2
    exact ⟨h1, h2⟩
  · intro s
    have e1 : includes (toLowerCase "TUMOR or Normal") "normal" = true := by decide
    have e2 : includes (toLowerCase "nOrMaL, not tUmOr") "normal" = true := by decide
    have e3 : includes (toLowerCase "Normal") "normal" = true := by decide
    have e4 : includes (toLowerCase "Tumor") "normal" = false := by decide
    have e5 : includes (toLowerCase "Tumor") "tumor" = true := by decide
    have e6 : includes (toLowerCase "Cyst") "normal" = false := by decide
    have e7 : includes (toLowerCase "Cyst") "tumor" = false := by decide
    have h1 := displayed_cases s "TUMOR or Normal"
    have h2 := displayed_cases s "nOrMaL, not tUmOr"
    have h3 := displayed_cases s "Normal"
    have h4 := displayed_cases s "Tumor"
    have h5 := displayed_cases s "Cyst"
    rw [if_pos e1] at h1
    rw [if_pos e2] at h2
    rw [if_pos e3] at h3
    rw [e4, e5] at h4
    rw [e6, e7] at h5
    exact ⟨h1, h2, h3, by simpa using h4, by simpa using h5⟩


/-! ## Validation (C2) -/

theorem handleFile_valid (s : Page) (f : File) (h : validFile f = true) :
    handleFile s f = { s with reading := s.reading ++ [f] } := by
  simp only [validFile, Bool.and_eq_true, decide_eq_true_eq] at h
  have h2 : ¬ f.size > 10 * 1024 * 1024 := by omega
  simp [handleFile, h.1, h2]

theorem handleFile_invalid (s : Page) (f : File) (h : validFile f = false) :
    ∃ w, handleFile s f = { s with alerts := s.alerts ++ [w] } := by
  unfold handleFile
  split_ifs with h1 h2
  · exact ⟨_, rfl⟩
  · exact ⟨_, rfl⟩
  · exfalso
    have h3 : f.size ≤ 10485760 := by omega
    cases hs : startsWith f.type "image/"
    · simp [hs] at h1
    · simp [validFile, hs, h3] at h

theorem rejects_of_invalid (s : Page) (f : File) (h : validFile f = false) : rejects s f := by
  obtain ⟨w, hw⟩ := handleFile_invalid s f h
  rw [rejects, hw]
  exact ⟨⟨w, rfl⟩, rfl, rfl, rfl, rfl, rfl⟩

theorem accepts_iff_valid (s : Page) (f : File) : accepts s f ↔ validFile f = true := by
  constructor
  · intro h
    by_contra hv
    obtain ⟨w, hw⟩ := handleFile_invalid s f (by simpa using hv)
    have h1 := h.1
    rw [hw] at h1
    have h2 := congrArg List.length h1
    simp at h2
  · intro h
    rw [accepts, handleFile_valid s f h]
    exact ⟨rfl, rfl⟩

/-- C2: for every page and every file `f`, `handleFile` accepts `f` (starts the
preview read, issues no warning) if and only if `f.type` starts with "image/"
and `f.size` is at most 10,485,760; otherwise it rejects `f` (one warning, no
read started, the visibility of the preview, loading and result regions and
the preview image unchanged). Every file larger than 10,485,760 bytes is
rejected whatever its type, and an image of exactly 10,485,760 bytes is
accepted. -/
theorem C2_handleFile_validation (s : Page) (f : File) :
    (accepts s f ↔ (startsWith f.type "image/" = true ∧ f.size ≤ 10485760)) ∧
    (¬ (startsWith f.type "image/" = true ∧ f.size ≤ 10485760) → rejects s f) ∧
    (f.size > 10485760 → rejects s f) ∧
    (startsWith f.type "image/" = true → f.size = 10485760 → accepts s f) ∧
    accepts s scanJpg ∧ rejects s hugePng ∧ rejects s notesTxt := by
  have hv : validFile f = true ↔ (startsWith f.type "image/" = true ∧ f.size ≤ 10485760) := by
    simp [validFile]
  refine ⟨(accepts_iff_valid s f).trans hv, ?_, ?_, ?_, ?_, ?_, ?_⟩
  · intro h
    exact rejects_of_invalid s f (by rw [← Bool.not_eq_true, hv]; exact h)
  · intro h
    exact rejects_of_invalid s f (by rw [← Bool.not_eq_true, hv]; omega)
  · intro h1 h2
    exact (accepts_iff_valid s f).2 (hv.2 ⟨h1, by omega⟩)
  · exact (accepts_iff_valid s scanJpg).2 (by decide)
  · exact rejects_of_invalid s hugePng (by decide)
  · exact rejects_of_invalid s notesTxt (by decide)

/-! ## Predict without a file (C5) -/

/-- C5: in every state in which `fileInput` holds no file, the predict action
issues the warning, issues no request to POST /predict (the log of requests and
the requests in flight are unchanged), and leaves the visibility of the
preview, loading and result regions unchanged. -/
theorem C5_predict_without_file (s : Page) (h : s.files = []) :
    (step s .predict).alerts = s.alerts ++ [noFileWarning] ∧
    (step s .predict).posted = s.posted ∧
    (step s .predict).inFlight = s.inFlight ∧
    sameView s (step s .predict) := by
  simp [step, predictClick, h, sameView]

theorem C5_predict_without_file_witness :
    initialPage.files = [] ∧
    (step initialPage .predict).alerts = initialPage.alerts ++ [noFileWarning] ∧
    (step initialPage .predict).posted = initialPage.posted ∧
    (step initialPage .predict).inFlight = initialPage.inFlight ∧
    sameView initialPage (step initialPage .predict) :=
  ⟨rfl, C5_predict_without_file initialPage rfl⟩

/-! ## Reset (C9) -/

/-- C9: from any state, immediately after the reset action no file is selected
and the loading, preview and result regions are all hidden; in particular so
from a state showing a result. -/
theorem C9_reset_returns_to_idle (s : Page) :
    (step s .reset).files = [] ∧
    (step s .reset).loaderVisible = false ∧
    (step s .reset).previewVisible = false ∧
    (step s .reset).resultVisible = false ∧
    (step s .reset).scrolls = s.scrolls ++ ["uploadArea"] := by
  simp [step, resetClick]

/-! ## List facts used for the request just issued -/

theorem lookup_append_last (l : List File) (f : File) : (l ++ [f]).get? l.length = some f := by
  simp

theorem eraseIdx_append_last (l : List File) (f : File) : (l ++ [f]).eraseIdx l.length = l := by
  induction l with
  | nil => rfl
  | cons a l ih => simp [List.eraseIdx, ih]

theorem submitThenSettle_eq (s : Page) (f : File) (fs : List File) (h : s.files = f :: fs)
    (r : FetchOutcome) :
    submitThenSettle s r =
      predictResume { s with previewVisible := false, loaderVisible := true,
                             resultVisible := false, posted := s.posted ++ [f] } r := by
  simp [submitThenSettle, step, predictClick, h, lookup_append_last, eraseIdx_append_last]

/-! ## Transport failure (C7) -/

theorem fetchDone_eq (s : Page) (i : Nat) (f : File) (h : s.inFlight.get? i = some f)
    (r : FetchOutcome) :
    step s (.fetchDone i r) = predictResume { s with inFlight := s.inFlight.eraseIdx i } r := by
  simp only [step, h]

/-- C7 as stated fails: from the `Previewing` mode, with the preview visible
and `kidneyPng` selected, a rejected network call leaves the file selected,
hides the loader and issues the network-error warning, but the preview region
is hidden afterwards. -/
theorem C7_preview_not_restored :
    previewing.previewVisible = true ∧ previewing.files = [kidneyPng] ∧
    (submitThenSettle previewing .rejected).files = [kidneyPng] ∧
    (submitThenSettle previewing .rejected).loaderVisible = false ∧
    (submitThenSettle previewing .rejected).alerts = [networkWarning] ∧
    (submitThenSettle previewing .rejected).previewVisible = false ∧
    (submitThenSettle previewing .unparseable).previewVisible = false := by
  decide

/-- C7, amended: if the network call of a predict action is rejected or the
response body cannot be parsed, then, whatever happened on the page while the
request was in flight, handling the failure hides the loader, issues the
generic network-error warning, takes the request out of flight and changes
nothing else: the selected file and the visibility of the preview and result
regions are as they were just before the failure was handled. When the
predict action was started with a file selected and the failure is the next
event after it, the selected file is therefore the same as before the
submission and the result region is hidden; the preview region is not shown
again: it stays hidden, as the predict action left it. -/
theorem C7_transport_failure (s : Page) (r : FetchOutcome)
    (hr : r = .rejected ∨ r = .unparseable) :
    (∀ (i : Nat) (f : File), s.inFlight.get? i = some f →
      step s (.fetchDone i r) =
        { s with inFlight := s.inFlight.eraseIdx i, loaderVisible := false,
                 alerts := s.alerts ++ [networkWarning] } ∧
      (step s (.fetchDone i r)).loaderVisible = false ∧
      (step s (.fetchDone i r)).alerts = s.alerts ++ [networkWarning] ∧
      (step s (.fetchDone i r)).files = s.files ∧
      (step s (.fetchDone i r)).previewVisible = s.previewVisible ∧
      (step s (.fetchDone i r)).resultVisible = s.resultVisible) ∧
    (∀ (f : File) (fs : List File), s.files = f :: fs →
      (submitThenSettle s r).loaderVisible = false ∧
      (submitThenSettle s r).alerts = s.alerts ++ [networkWarning] ∧
      (submitThenSettle s r).files = s.files ∧
      (submitThenSettle s r).posted = s.posted ++ [f] ∧
      (submitThenSettle s r).inFlight = s.inFlight ∧
      (submitThenSettle s r).resultVisible = false ∧
      (submitThenSettle s r).previewVisible = false) := by
  constructor
  · intro i f hi
    rw [fetchDone_eq s i f hi]
    rcases hr with rfl | rfl <;> simp [predictResume, catchBlock]
  · intro f fs h
    rw [submitThenSettle_eq s f fs h]
    rcases hr with rfl | rfl <;> simp [predictResume, catchBlock]

theorem C7_transport_failure_witness :
    (FetchOutcome.rejected = .rejected ∨ FetchOutcome.rejected = .unparseable) ∧
    submitting.inFlight.get? 0 = some kidneyPng ∧
    (step submitting (.fetchDone 0 .rejected)).loaderVisible = false ∧
    (step submitting (.fetchDone 0 .rejected)).alerts = submitting.alerts ++ [networkWarning] ∧
    (step submitting (.fetchDone 0 .rejected)).files = submitting.files ∧
    (step submitting (.fetchDone 0 .rejected)).previewVisible = submitting.previewVisible ∧
    (step submitting (.fetchDone 0 .rejected)).resultVisible = submitting.resultVisible ∧
    submitting.files = kidneyPng :: [] ∧
    (submitThenSettle submitting .rejected).previewVisible = false :=
  ⟨Or.inl rfl, by decide,
   ((C7_transport_failure submitting .rejected (Or.inl rfl)).1 0 kidneyPng (by decide)).2.1,
   ((C7_transport_failure submitting .rejected (Or.inl rfl)).1 0 kidneyPng (by decide)).2.2.1,
   ((C7_transport_failure submitting .rejected (Or.inl rfl)).1 0 kidneyPng (by decide)).2.2.2.1,
   ((C7_transport_failure submitting .rejected (Or.inl rfl)).1 0 kidneyPng
      (by decide)).2.2.2.2.1,
   ((C7_transport_failure submitting .rejected (Or.inl rfl)).1 0 kidneyPng
      (by decide)).2.2.2.2.2,
   by decide,
   ((C7_transport_failure submitting .rejected (Or.inl rfl)).2 kidneyPng []
      (by decide)).2.2.2.2.2.2⟩

/-! ## Failure status (C8) -/

/-- C8 as stated fails: for the response `{status: "error"}` without a message
the warning issued is "❌ Error: Prediction failed", which is not the text
"Prediction failed". For the body `null`, which has neither a status nor a
message, reading `data.status` throws and the warning issued is the
network-error one. -/
theorem C8_warning_has_prefix :
    (submitThenSettle previewing (.parsed errorWithoutMessage)).alerts =
      ["❌ Error: Prediction failed"] ∧
    (submitThenSettle previewing (.parsed errorWithoutMessage)).alerts ≠
      ["Prediction failed"] ∧
    (submitThenSettle previewing .parsedNull).alerts = [networkWarning] := by
  decide

/-- C8, amended: for every parsed response body other than `null` whose status
is not "success" and that carries no message, the warning issued by the predict
handler is "❌ Error: " followed by the generic fallback "Prediction failed",
and it is the only warning issued; the handler hides the loader and does not
show the result region: whatever happened on the page while the request was in
flight, the visibility of the result and preview regions is as it was just
before the response was handled, and the result region is hidden when the
response is the next event after a predict action started with a file
selected. -/
theorem C8_failure_status_fallback (s : Page) (d : ResponseData)
    (hs : d.status ≠ .string "success") (hm : d.message = .undefined) :
    (∀ (i : Nat) (f : File), s.inFlight.get? i = some f →
      step s (.fetchDone i (.parsed d)) =
        { s with inFlight := s.inFlight.eraseIdx i, loaderVisible := false,
                 alerts := s.alerts ++ ["❌ Error: Prediction failed"] } ∧
      (step s (.fetchDone i (.parsed d))).alerts = s.alerts ++ ["❌ Error: Prediction failed"] ∧
      (step s (.fetchDone i (.parsed d))).resultVisible = s.resultVisible ∧
      (step s (.fetchDone i (.parsed d))).previewVisible = s.previewVisible ∧
      (step s (.fetchDone i (.parsed d))).loaderVisible = false) ∧
    (∀ (f : File) (fs : List File), s.files = f :: fs →
      (submitThenSettle s (.parsed d)).alerts = s.alerts ++ ["❌ Error: Prediction failed"] ∧
      (submitThenSettle s (.parsed d)).resultVisible = false ∧
      (submitThenSettle s (.parsed d)).loaderVisible = false) := by
  have e : "❌ Error: " ++ "Prediction failed" = "❌ Error: Prediction failed" := by decide
  have ht : (orElse d.message "Prediction failed").toStr = some "Prediction failed" := by
    rw [hm]
    rfl
  constructor
  · intro i f hi
    rw [fetchDone_eq s i f hi, ← e]
    simp [predictResume, hs, ht]
  · intro f fs h
    rw [submitThenSettle_eq s f fs h, ← e]
    simp [predictResume, hs, ht]

theorem C8_failure_status_fallback_witness :
    errorWithoutMessage.status ≠ .string "success" ∧
    errorWithoutMessage.message = .undefined ∧
    submitting.inFlight.get? 0 = some kidneyPng ∧
    (step submitting (.fetchDone 0 (.parsed errorWithoutMessage))).alerts =
      submitting.alerts ++ ["❌ Error: Prediction failed"] ∧
    (step submitting (.fetchDone 0 (.parsed errorWithoutMessage))).resultVisible =
      submitting.resultVisible ∧
    previewing.files = kidneyPng :: [] ∧
    (submitThenSettle previewing (.parsed errorWithoutMessage)).resultVisible = false :=
  ⟨by decide, rfl, by decide,
   ((C8_failure_status_fallback submitting errorWithoutMessage (by decide) rfl).1 0 kidneyPng
      (by decide)).2.1,
   ((C8_failure_status_fallback submitting errorWithoutMessage (by decide) rfl).1 0 kidneyPng
      (by decide)).2.2.1,
   by decide,
   ((C8_failure_status_fallback previewing errorWithoutMessage (by decide) rfl).2 kidneyPng []
      (by decide)).2.1⟩

/-! ## Region consistency (C6) -/

theorem settled_initialPage : settled initialPage := by
  simp [settled, initialPage]

theorem settled_handleFile (s : Page) (f : File) (hq : s.inFlight = []) (h : settled s) :
    settled (handleFile s f) := by
  unfold handleFile
  split_ifs <;> simpa [settled, hq] using h.1 hq

theorem settled_predictResume (s : Page) (r : FetchOutcome) (hq : s.inFlight = [])
    (hp : s.previewVisible = false) :
    settled (predictResume s r) := by
  cases r with
  | rejected => simp [settled, predictResume, catchBlock, hq, hp]
  | unparseable => simp [settled, predictResume, catchBlock, hq, hp]
  | parsedNull => simp [settled, predictResume, catchBlock, hq, hp]
  | parsed d =>
    unfold predictResume
    simp only
    split_ifs
    · cases hd : d.prediction.asString with
      | none => simp [settled, displayResult, catchBlock, hq, hp]
      | some p =>
        simp only [displayResult]
        split_ifs <;> simp [settled, hq, hp]
    · cases ht : (orElse d.message "Prediction failed").toStr with
      | none => simp [settled, catchBlock, hq, hp]
      | some text => simp [settled, hq, hp]

theorem settled_step (s : Page) (e : Event) (hq : quiet s e = true) (h : settled s) :
    settled (step s e) := by
  cases e with
  | browse files =>
    have hq2 : s.inFlight = [] := by simpa [quiet] using hq
    have h1 : settled { s with files := files } := by simpa [settled] using h
    cases files with
    | nil => exact h1
    | cons f fs => exact settled_handleFile _ f hq2 h1
  | drop files =>
    have hq2 : s.inFlight = [] := by simpa [quiet] using hq
    have h1 : settled { s with uploadBackground := "#f8fafc" } := by simpa [settled] using h
    cases files with
    | nil => exact h1
    | cons f fs => exact settled_handleFile _ f hq2 h1
  | dragover => simpa [settled, step, dragoverArea] using h
  | dragleave => simpa [settled, step, dragleaveArea] using h
  | remove =>
    refine ⟨fun hi => ?_, fun hi => ?_⟩
    · have := h.1 hi
      simp [step, removeClick, this.1]
    · have := h.2 hi
      simp [step, removeClick, this]
  | reset =>
    have hq2 : s.inFlight = [] := by simpa [quiet] using hq
    simp [settled, step, resetClick, hq2]
  | predict =>
    have hq2 : s.inFlight = [] ∧ s.reading = [] := by simpa [quiet] using hq
    cases hf : s.files with
    | nil => simpa [settled, step, predictClick, hf] using h
    | cons f fs => simp [settled, step, predictClick, hf, hq2.1, hq2.2]
  | readDone i =>
    simp only [step]
    cases hg : s.reading.get? i with
    | none => exact h
    | some f =>
      have hi : s.inFlight = [] := by
        by_contra hne
        have := (h.2 hne).2.2.2.1
        simp [this] at hg
      simp [settled, readerOnload, hi, (h.1 hi).1]
  | fetchDone i r =>
    simp only [step]
    cases hg : s.inFlight.get? i with
    | none => exact h
    | some f =>
      have hne : s.inFlight ≠ [] := by
        intro hi
        simp [hi] at hg
      obtain ⟨-, hp, -, -, hlen⟩ := h.2 hne
      obtain ⟨a, ha⟩ := List.length_eq_one.1 hlen
      have hi0 : i = 0 := by
        cases i with
        | zero => rfl
        | succ n => simp [ha] at hg
      exact settled_predictResume _ r (by simp [ha, hi0]) hp

theorem settled_run (es : List Event) :
    ∀ s : Page, serial s es = true → settled s → settled (run s es) := by
  induction es with
  | nil => intro s _ h; exact h
  | cons e es ih =>
    intro s hs h
    simp only [serial, Bool.and_eq_true] at hs
    exact ih (step s e) hs.2 (settled_step s e hs.1 h)

theorem regionsConsistent_of_settled (s : Page) (h : settled s) :
    regionsConsistent s = true := by
  by_cases hi : s.inFlight = []
  · obtain ⟨hl, hpr⟩ := h.1 hi
    simp [regionsConsistent, atMostOneVisible, submittingConsistent, hi, hl, hpr]
  · obtain ⟨hl, hp, hr, -, -⟩ := h.2 hi
    simp [regionsConsistent, atMostOneVisible, submittingConsistent, hl, hp, hr]

/-- C6 as stated fails: select `kidneyPng`, let its preview appear, trigger
predict, then drop `scanJpg` on the upload area while the request is in flight;
when the read of the dropped file finishes, the preview and the loader are both
visible and the request is still in flight. -/
theorem C6_preview_over_loader :
    (run initialPage [.browse [kidneyPng], .readDone 0, .predict, .drop [scanJpg],
      .readDone 0]).inFlight = [kidneyPng] ∧
    (run initialPage [.browse [kidneyPng], .readDone 0, .predict, .drop [scanJpg],
      .readDone 0]).loaderVisible = true ∧
    (run initialPage [.browse [kidneyPng], .readDone 0, .predict, .drop [scanJpg],
      .readDone 0]).previewVisible = true ∧
    regionsConsistent (run initialPage [.browse [kidneyPng], .readDone 0, .predict,
      .drop [scanJpg], .readDone 0]) = false := by
  decide

/-- C6, amended: in every state reachable from the initial page by a sequence
of user actions and asynchronous completions in which browse-select, drop,
predict and reset are triggered only while no request is in flight, and predict
only while no file read is pending, at most one of the preview, loading and
result regions is visible, and whenever a request is in flight the loading
indicator is visible and both the preview and result regions are hidden. -/
theorem C6_regions_consistent_serial (es : List Event) (h : serial initialPage es = true) :
    atMostOneVisible (run initialPage es) = true ∧
    ((run initialPage es).inFlight ≠ [] →
      (run initialPage es).loaderVisible = true ∧
      (run initialPage es).previewVisible = false ∧
      (run initialPage es).resultVisible = false) := by
  have hs := settled_run es initialPage h settled_initialPage
  have hc := regionsConsistent_of_settled _ hs
  simp only [regionsConsistent, Bool.and_eq_true] at hc
  exact ⟨hc.1, fun hne => ⟨(hs.2 hne).1, (hs.2 hne).2.1, (hs.2 hne).2.2.1⟩⟩

theorem C6_regions_consistent_serial_witness :
    serial initialPage [.browse [kidneyPng], .readDone 0, .predict] = true ∧
    atMostOneVisible (run initialPage [.browse [kidneyPng], .readDone 0, .predict]) = true ∧
    ((run initialPage [.browse [kidneyPng], .readDone 0, .predict]).inFlight ≠ [] →
      (run initialPage [.browse [kidneyPng], .readDone 0, .predict]).loaderVisible = true ∧
      (run initialPage [.browse [kidneyPng], .readDone 0, .predict]).previewVisible = false ∧
      (run initialPage [.browse [kidneyPng], .readDone 0, .predict]).resultVisible = false) :=
  ⟨by decide,
   C6_regions_consistent_serial [.browse [kidneyPng], .readDone 0, .predict] (by decide)⟩

/-! ## Files that reach the network (C3, C4, C10) -/

/-- C3 fails on the code: with a preview on screen, picking `notesTxt` (type
text/plain) in the browse dialog is refused by `handleFile` with a warning, yet
the file stays in `fileInput.files`, and the predict action posts it. The same
holds for the oversized `hugePng`. -/
theorem C3_rejected_file_is_posted :
    validFile notesTxt = false ∧ validFile hugePng = false ∧
    (run initialPage [.browse [kidneyPng], .readDone 0, .browse [notesTxt]]).alerts
      = [typeWarning] ∧
    (run initialPage [.browse [kidneyPng], .readDone 0, .browse [notesTxt]]).previewVisible
      = true ∧
    (run initialPage [.browse [kidneyPng], .readDone 0, .browse [notesTxt], .predict]).posted
      = [notesTxt] ∧
    (run initialPage [.browse [kidneyPng], .readDone 0, .browse [hugePng], .predict]).posted
      = [hugePng] := by
  decide

/-- C4 fails on the code: the valid file `kidneyPng` is dropped on the upload
area and its preview is shown, but the drop listener does not store it in
`fileInput.files`; predict then issues the no-file warning and no request. When
another file was picked in the browse dialog before, predict posts that one,
not the dropped file on screen. -/
theorem C4_dropped_file_is_not_posted :
    validFile kidneyPng = true ∧
    (run initialPage [.drop [kidneyPng], .readDone 0]).previewVisible = true ∧
    (run initialPage [.drop [kidneyPng], .readDone 0]).imagePreviewSrc = some kidneyPng ∧
    (run initialPage [.drop [kidneyPng], .readDone 0, .predict]).posted = [] ∧
    (run initialPage [.drop [kidneyPng], .readDone 0, .predict]).alerts = [noFileWarning] ∧
    (run initialPage [.browse [scanJpg], .readDone 0, .drop [kidneyPng],
      .readDone 0]).imagePreviewSrc = some kidneyPng ∧
    (run initialPage [.browse [scanJpg], .readDone 0, .drop [kidneyPng], .readDone 0,
      .predict]).posted = [scanJpg] := by
  decide

/-- C10 fails on the code: for the response `{status: "success"}` without a
prediction, `displayResult` shows the result region and then throws, the
`catch` block issues the network-error warning, and the result region is
left visible. -/
theorem C10_error_branch_leaves_result_visible :
    displayResult previewing none = .error { previewing with resultVisible := true } ∧
    (submitThenSettle previewing (.parsed successWithoutLabel)).alerts = [networkWarning] ∧
    (submitThenSettle previewing (.parsed successWithoutLabel)).resultVisible = true ∧
    (submitThenSettle previewing .rejected).resultVisible = false :=
  ⟨rfl, by decide⟩

end KidneyUI
